import Mathlib

/-!
# AuraAI frontend — shallow embedding and verification

This file embeds the client-side data-synchronization and view-reconciliation
logic of the AuraAI single-page application (files under `Frontend/src/`) as
executable Lean definitions, and proves the specified properties about them.

Modelling conventions:
* JavaScript strings are Lean `String`s; `s.length` counts characters where the
  source counts UTF-16 code units (they agree on the inputs considered here).
* A JavaScript value that may be `null`/`undefined` is an `Option`; JavaScript
  truthiness of an optional string (where `null`, `undefined` and `""` are all
  falsy) is `strTruthy`.
* A `fetch` response is an `Option` of the parsed payload: `none` stands for a
  non-success (`!response.ok`) response or a transport failure, `some` for a
  success whose JSON body parsed into the given payload.
* Locale- and clock-dependent primitives (`new Date(...).toISOString()`,
  `toLocaleDateString`, "today") are abstracted as function parameters, since
  their exact output is environment-dependent; the logic under verification is
  everything around them.
-/

namespace AuraAI

/-- JavaScript truthiness of an optional string: `null`/`undefined` (here
`none`) and the empty string are falsy, every other string is truthy. -/
def strTruthy : Option String → Bool
  | none => false
  | some s => s ≠ ""

/-- Does the character list `s` start with `pat`? -/
def listStartsWith (pat s : List Char) : Bool :=
  match pat, s with
  | [], _ => true
  | _ :: _, [] => false
  | p :: ps, x :: xs => p = x && listStartsWith ps xs

/-- Does `pat` occur as a contiguous sublist of `s`? -/
def listContainsSub (pat : List Char) : List Char → Bool
  | [] => listStartsWith pat []
  | x :: xs => listStartsWith pat (x :: xs) || listContainsSub pat xs

/-- JavaScript `String.prototype.includes(pat)`: `pat` occurs as a substring
of `s`. -/
def jsIncludes (s pat : String) : Bool := listContainsSub pat.data s.data

/-- JavaScript `String.prototype.toLowerCase`, character-wise (the strings
under consideration are plain text; locale-specific case mappings are out of
scope). -/
def jsToLower (s : String) : String := String.mk (s.data.map Char.toLower)

/-- JavaScript `String.prototype.split(sep)` for a single-character
separator: split the character list at every occurrence of `sep`, keeping
empty pieces, with `[""]` for the empty string. -/
def splitOnChar (c : Char) : List Char → List (List Char)
  | [] => [[]]
  | x :: xs =>
    match splitOnChar c xs with
    | [] => [[]]
    | r :: rs => if x = c then [] :: r :: rs else (x :: r) :: rs

/-- JavaScript `s.split(sep)` (single-character separator), on strings. -/
def jsSplit (sep : Char) (s : String) : List String :=
  (splitOnChar sep s.data).map String.mk

/-! ## ProductsPage (`Frontend/src/pages/ProductsPage.jsx`)

The page component reads the `productName` route parameter and the
authenticated user from context.  Only the user's `persona` field is read by
the views embedded here. -/

/-- The authenticated user as far as the embedded views read it: the
`persona` flag (`"employee"` or `"admin"`) gating feature visibility. -/
structure User where
  persona : String
deriving Repr, DecidableEq

/-- One entry of the static `productInfo` table in `ProductsPage.jsx`. -/
structure Product where
  title : String
  placeholder : String
deriving Repr, DecidableEq

/-- The `productInfo` lookup table of `ProductsPage.jsx` (descriptions are
long marketing copy and are not read by any verified property; title and
placeholder identify the entry). -/
def productInfo : String → Option Product
  | "Trans2Actions" =>
      some { title := "Transcript to Actions",
             placeholder := "Ask anything about Trans2Actions. Type @ for mentions." }
  | "User-Load" =>
      some { title := "User's Workload",
             placeholder := "Ask anything about UserLoad. Type @ for mentions." }
  | "AdminPerspective" =>
      some { title := "Admin's Perspective",
             placeholder := "Ask anything about AdminPerspective. Type @ for mentions." }
  | _ => none

/-- The `Trans2Actions` entry, the fallback of
`productInfo[productName] || productInfo.Trans2Actions`. -/
def trans2ActionsInfo : Product :=
  { title := "Transcript to Actions",
    placeholder := "Ask anything about Trans2Actions. Type @ for mentions." }

/-- The `AdminPerspective` entry of the table. -/
def adminPerspectiveInfo : Product :=
  { title := "Admin's Perspective",
    placeholder := "Ask anything about AdminPerspective. Type @ for mentions." }

/-- What `ProductsPage` returns from render: either a `<Navigate to=.../>`
redirect or the product page for a `productInfo` entry. -/
inductive ProductsView where
  | redirect (dest : String)
  | page (product : Product)
deriving Repr, DecidableEq

/-- The render decision of `ProductsPage` (`ProductsPage.jsx`): if
`productName === "AdminPerspective" && user?.persona === "employee"` the
component returns `<Navigate to="/products/Trans2Actions" replace />`;
otherwise it renders the page for
`productInfo[productName] || productInfo.Trans2Actions`. -/
def productsPageView (productName : String) (user : Option User) : ProductsView :=
  if productName = "AdminPerspective" ∧ user.map User.persona = some "employee" then
    .redirect "/products/Trans2Actions"
  else
    .page ((productInfo productName).getD trans2ActionsInfo)

/-- C1: a user whose persona is `employee` navigating to the admin-only
product route is redirected to the default product route
(`/products/Trans2Actions`) — the AdminPerspective UI never renders for
them — while a user whose persona is `admin` navigating to the same route
sees the AdminPerspective page. -/
theorem adminPerspective_route_gated_by_persona (u : User) :
    (u.persona = "employee" →
      productsPageView "AdminPerspective" (some u) =
        .redirect "/products/Trans2Actions") ∧
    (u.persona = "admin" →
      productsPageView "AdminPerspective" (some u) = .page adminPerspectiveInfo) := by
  constructor
  · intro h
    simp [productsPageView, h]
  · intro h
    simp [productsPageView, h, productInfo, adminPerspectiveInfo]

/-- Instantiation of `adminPerspective_route_gated_by_persona` at concrete
employee and admin users. -/
theorem adminPerspective_route_gated_by_persona_witness :
    productsPageView "AdminPerspective" (some { persona := "employee" }) =
      .redirect "/products/Trans2Actions" ∧
    productsPageView "AdminPerspective" (some { persona := "admin" }) =
      .page adminPerspectiveInfo :=
  ⟨(adminPerspective_route_gated_by_persona { persona := "employee" }).1 rfl,
   (adminPerspective_route_gated_by_persona { persona := "admin" }).2 rfl⟩

/-! ## TasksView (`Frontend/src/components/dashboard/TasksView.jsx`)

`fetchTasks` loads the settings (for the board id), then the board's cards,
and converts each card to the application's task model.  `filteredTasks`
and `toggleTaskStatus` are the view-reconciliation operations over the
in-memory task list. -/

/-- The fixed assignee every converted card receives
(`assignee: { id: "1", name: "You" }`). -/
structure Assignee where
  id : String
  name : String
deriving Repr, DecidableEq

/-- A raw Trello card as the `/composio/trello/cards` payload delivers it,
restricted to the fields `fetchTasks` reads.  Optional fields model JSON
fields that may be absent (`undefined`/`null`). -/
structure Card where
  id : String
  name : String
  desc : Option String
  closed : Bool
  due : Option String
  dateLastActivity : Option String
  shortUrl : String
  url : String
  comments_count : Option Nat
  checklists_count : Option Nat
  list_id : String
  list_name : String
  dueComplete : Option Bool
  labels : Option (List String)
deriving Repr, DecidableEq

/-- The application's task model, exactly the object literal built per card
in `fetchTasks` (labels are kept as the opaque payload strings). -/
structure Task where
  id : String
  title : String
  description : String
  status : String
  dueDate : String
  assignee : Assignee
  meetingIds : List String
  closed : Bool
  shortUrl : String
  url : String
  dateLastActivity : String
  commentsCount : Nat
  checklistsCount : Nat
  listName : String
  listId : String
  dueComplete : Bool
  labels : List String
deriving Repr, DecidableEq

/-- The per-card body of `data.cards.map((card) => ...)` in `fetchTasks`.

* `fmt` abstracts `new Date(s).toLocaleDateString("en-US", ...)` (locale
  formatting of the last-activity timestamp);
* `parse` abstracts `new Date(s).toISOString().split('T')[0]`: `some d` when
  the date string parses (yielding the calendar-date part `d`), `none` when
  `toISOString` throws on an invalid date, in which case the `catch` leaves
  the fallback in place;
* `today` abstracts `new Date().toISOString().split('T')[0]`, the current
  date used as the fallback `dueDate`. -/
def cardToTask (fmt : String → String) (parse : String → Option String)
    (today : String) (card : Card) : Task :=
  let lastActivity :=
    if strTruthy card.dateLastActivity then fmt (card.dateLastActivity.getD "")
    else "No activity"
  let dueDate :=
    if strTruthy card.due then (parse (card.due.getD "")).getD today
    else today
  { id := card.id
    title := card.name
    description := card.desc.getD ""
    status := if card.closed then "done" else "open"
    dueDate := dueDate
    assignee := { id := "1", name := "You" }
    meetingIds := []
    closed := card.closed
    shortUrl := card.shortUrl
    url := card.url
    dateLastActivity := lastActivity
    commentsCount := card.comments_count.getD 0
    checklistsCount := card.checklists_count.getD 0
    listName := card.list_name
    listId := card.list_id
    dueComplete := card.dueComplete.getD false
    labels := card.labels.getD [] }

/-- The card-to-task transform of `fetchTasks`:
`const allTasks = data.cards.map((card) => ...)`. -/
def fetchTasksTransform (fmt : String → String) (parse : String → Option String)
    (today : String) (cards : List Card) : List Task :=
  cards.map (cardToTask fmt parse today)

/-- One display group of the secondary `listsMap` output: cards grouped by
`list_id`, keeping the first-seen order of lists and of cards inside each
list (JavaScript `Map` preserves insertion order). -/
structure CardList where
  id : String
  name : String
  cards : List Card
deriving Repr, DecidableEq

/-- The `listsMap` grouping of `fetchTasks`, as a fold over the cards in
order. -/
def groupCardsByList (cards : List Card) : List CardList :=
  cards.foldl
    (fun acc card =>
      if (acc.find? (fun l => l.id = card.list_id)).isSome then
        acc.map (fun l =>
          if l.id = card.list_id then { l with cards := l.cards ++ [card] } else l)
      else
        acc ++ [{ id := card.list_id, name := card.list_name, cards := [card] }])
    []

/-- The component state `fetchTasks` may update: the `tasks` and `lists`
`useState` cells. -/
structure TasksState where
  tasks : List Task
  lists : List CardList
deriving Repr, DecidableEq

/-- The settings payload, restricted to the field `fetchTasks` reads. -/
structure Settings where
  workspace_id : Option String
deriving Repr, DecidableEq

/-- The `/composio/trello/cards` payload, restricted to the field read. -/
structure CardsPayload where
  cards : List Card
deriving Repr, DecidableEq

/-- The state transition of one `fetchTasks` run.  `settingsResp` is the
`/settings` response, `cardsResp` the `/composio/trello/cards` response
(`none` = non-success response, matching the early `return` on
`!response.ok`).  Every early-return path leaves the state unchanged; only
a success with a nonempty `cards` array replaces `tasks` and `lists`. -/
def fetchTasks (fmt : String → String) (parse : String → Option String)
    (today : String) (settingsResp : Option Settings)
    (cardsResp : Option CardsPayload) (st : TasksState) : TasksState :=
  match settingsResp with
  | none => st
  | some settings =>
    match settings.workspace_id with
    | none => st
    | some boardId =>
      if boardId = "" then st
      else
        match cardsResp with
        | none => st
        | some data =>
          if data.cards.length > 0 then
            { tasks := fetchTasksTransform fmt parse today data.cards
              lists := groupCardsByList data.cards }
          else st

/-- The `filteredTasks` derived list of `TasksView`: keep tasks matching the
current filter (`"open"`/`"done"` match on status, anything else keeps
all). -/
def filteredTasks (filter : String) (tasks : List Task) : List Task :=
  tasks.filter (fun task =>
    if filter = "open" then task.status = "open"
    else if filter = "done" then task.status = "done"
    else true)

/-- The body of the `tasks.map` in `toggleTaskStatus`: flip the matching
task's status (`"done"` becomes `"open"`, anything else becomes `"done"`),
leave every other task alone. -/
def toggleOne (id : String) (t : Task) : Task :=
  if t.id = id then
    { t with status := if t.status = "done" then "open" else "done" }
  else t

/-- The `toggleTaskStatus` handler of `TasksView`: if no task has the given id the
function returns early and the list is unchanged; otherwise every task is
mapped through `toggleOne`. -/
def toggleTaskStatus (id : String) (tasks : List Task) : List Task :=
  match tasks.find? (fun t => t.id = id) with
  | none => tasks
  | some _ => tasks.map (toggleOne id)

/-! ### Per-card transform properties (claim C2) -/

/-- Per-card properties of `cardToTask`: id preserved, status derived from
the closed flag, and the due-date fallback policy. -/
theorem cardToTask_spec (fmt : String → String) (parse : String → Option String)
    (today : String) (card : Card) :
    (cardToTask fmt parse today card).id = card.id ∧
    (card.closed = true → (cardToTask fmt parse today card).status = "done") ∧
    (card.closed = false → (cardToTask fmt parse today card).status = "open") ∧
    (card.due = none → (cardToTask fmt parse today card).dueDate = today) ∧
    (card.due = some "" → (cardToTask fmt parse today card).dueDate = today) ∧
    (∀ s d, card.due = some s → s ≠ "" → parse s = some d →
      (cardToTask fmt parse today card).dueDate = d) ∧
    (∀ s, card.due = some s → s ≠ "" → parse s = none →
      (cardToTask fmt parse today card).dueDate = today) := by
  refine ⟨rfl, ?_, ?_, ?_, ?_, ?_, ?_⟩
  · intro h; simp [cardToTask, h]
  · intro h; simp [cardToTask, h]
  · intro h; simp [cardToTask, strTruthy, h]
  · intro h; simp [cardToTask, strTruthy, h]
  · intro s d hdue hs hp; simp [cardToTask, strTruthy, hdue, hs, hp]
  · intro s hdue hs hp; simp [cardToTask, strTruthy, hdue, hs, hp]

/-- C2: the card-to-task adapter is total, preserves card order and count,
derives `status` from the closed flag (`"done"` iff closed, else `"open"`),
and computes `dueDate` as the parsed due date when one is present and
parseable, falling back to the current date when the due date is missing,
empty, or fails to parse — no input makes the transform fail. -/
theorem fetchTasksTransform_spec (fmt : String → String)
    (parse : String → Option String) (today : String) (cards : List Card) :
    (fetchTasksTransform fmt parse today cards).length = cards.length ∧
    ∀ (i : Nat) (h : i < cards.length)
      (h2 : i < (fetchTasksTransform fmt parse today cards).length),
      ((fetchTasksTransform fmt parse today cards).get ⟨i, h2⟩).id =
          (cards.get ⟨i, h⟩).id ∧
      ((cards.get ⟨i, h⟩).closed = true →
        ((fetchTasksTransform fmt parse today cards).get ⟨i, h2⟩).status = "done") ∧
      ((cards.get ⟨i, h⟩).closed = false →
        ((fetchTasksTransform fmt parse today cards).get ⟨i, h2⟩).status = "open") ∧
      ((cards.get ⟨i, h⟩).due = none →
        ((fetchTasksTransform fmt parse today cards).get ⟨i, h2⟩).dueDate = today) ∧
      (∀ s d, (cards.get ⟨i, h⟩).due = some s → s ≠ "" → parse s = some d →
        ((fetchTasksTransform fmt parse today cards).get ⟨i, h2⟩).dueDate = d) ∧
      (∀ s, (cards.get ⟨i, h⟩).due = some s → s ≠ "" → parse s = none →
        ((fetchTasksTransform fmt parse today cards).get ⟨i, h2⟩).dueDate = today) := by
  refine ⟨by simp [fetchTasksTransform], ?_⟩
  intro i h h2
  have hg : (fetchTasksTransform fmt parse today cards).get ⟨i, h2⟩ =
      cardToTask fmt parse today (cards.get ⟨i, h⟩) := by
    simp [fetchTasksTransform]
  rw [hg]
  obtain ⟨h1, h2', h3, h4, _, h6, h7⟩ :=
    cardToTask_spec fmt parse today (cards.get ⟨i, h⟩)
  exact ⟨h1, h2', h3, h4, h6, h7⟩

/-! ### Fetch-failure behaviour (claim C3) -/

/-- C3: if the settings fetch or the cards fetch returns a non-success
response, `fetchTasks` performs no transform and leaves the component state
— in particular the in-memory task list — unchanged. -/
theorem fetchTasks_failure_preserves_state (fmt : String → String)
    (parse : String → Option String) (today : String)
    (settingsResp : Option Settings) (cardsResp : Option CardsPayload)
    (st : TasksState) (hfail : settingsResp = none ∨ cardsResp = none) :
    fetchTasks fmt parse today settingsResp cardsResp st = st ∧
    (fetchTasks fmt parse today settingsResp cardsResp st).tasks = st.tasks := by
  have hst : fetchTasks fmt parse today settingsResp cardsResp st = st := by
    rcases hfail with h | h
    · subst h; rfl
    · subst h
      rcases settingsResp with _ | ⟨wid⟩
      · rfl
      · rcases wid with _ | b
        · rfl
        · by_cases hb : b = "" <;> simp [fetchTasks, hb]
  exact ⟨hst, by rw [hst]⟩

/-! ### Toggle (claim C5) -/

/-- The map body `toggleOne` never changes a task's id. -/
theorem toggleOne_preserves_id (id : String) (t : Task) :
    (toggleOne id t).id = t.id := by
  unfold toggleOne; split <;> rfl

/-- The map body `toggleOne` leaves tasks with a different id untouched. -/
theorem toggleOne_of_ne (id : String) (t : Task) (h : t.id ≠ id) :
    toggleOne id t = t := by
  simp [toggleOne, h]

/-- The map body `toggleOne` is an involution on tasks whose status is `"open"` or
`"done"`. -/
theorem toggleOne_involutive (id : String) (t : Task)
    (h : t.status = "open" ∨ t.status = "done") :
    toggleOne id (toggleOne id t) = t := by
  obtain ⟨tid, title, desc, status, due, asg, mids, cl, surl, url, dla, cc, clc,
    ln, li, dcp, lbl⟩ := t
  by_cases hid : tid = id <;> rcases h with h | h <;> simp at h <;> subst h <;>
    simp [toggleOne, hid]

/-- C5: for a task id present in the list (task statuses being `"open"` or
`"done"` per the data model), toggling twice restores the original list —
in particular the toggled task's original status — and after one toggle
every task with a different id is unchanged, at its original position. -/
theorem toggleTaskStatus_toggle_twice (id : String) (tasks : List Task)
    (hmem : id ∈ tasks.map Task.id)
    (hstatus : ∀ t ∈ tasks, t.status = "open" ∨ t.status = "done") :
    toggleTaskStatus id (toggleTaskStatus id tasks) = tasks ∧
    (toggleTaskStatus id tasks).length = tasks.length ∧
    ∀ (i : Nat) (h : i < tasks.length)
      (h2 : i < (toggleTaskStatus id tasks).length),
      (tasks.get ⟨i, h⟩).id ≠ id →
        (toggleTaskStatus id tasks).get ⟨i, h2⟩ = tasks.get ⟨i, h⟩ := by
  obtain ⟨t0, ht0, hid0⟩ := List.mem_map.mp hmem
  have h1 : toggleTaskStatus id tasks = tasks.map (toggleOne id) := by
    rcases hf : tasks.find? (fun t => t.id = id) with _ | t1
    · exfalso
      have := List.find?_eq_none.mp hf t0 ht0
      simp [hid0] at this
    · simp [toggleTaskStatus, hf]
  have h2 : toggleTaskStatus id (tasks.map (toggleOne id)) =
      (tasks.map (toggleOne id)).map (toggleOne id) := by
    rcases hf : (tasks.map (toggleOne id)).find? (fun t => t.id = id) with _ | t1
    · exfalso
      have := List.find?_eq_none.mp hf (toggleOne id t0)
        (List.mem_map_of_mem _ ht0)
      simp [toggleOne_preserves_id, hid0] at this
    · simp [toggleTaskStatus, hf]
  refine ⟨?_, ?_, ?_⟩
  · have hmapmap : ∀ (l : List Task),
        (∀ t ∈ l, t.status = "open" ∨ t.status = "done") →
        (l.map (toggleOne id)).map (toggleOne id) = l := by
      intro l hl
      induction l with
      | nil => rfl
      | cons a as ih =>
        simp only [List.map_cons, List.cons.injEq]
        exact ⟨toggleOne_involutive id a (hl a (by simp)),
               ih (fun t ht => hl t (by simp [ht]))⟩
    rw [h1, h2, hmapmap tasks hstatus]
  · rw [h1]; simp
  · intro i h h2' hne
    have hg : (toggleTaskStatus id tasks).get ⟨i, h2'⟩ =
        toggleOne id (tasks.get ⟨i, h⟩) := by
      simp [h1]
    rw [hg, toggleOne_of_ne id _ hne]

/-! ### Filter (claim C6) -/

/-- C6: for each filter predicate (`"all"`, `"open"`, `"done"`), filtering is
a pure function: filtering twice yields the same list as filtering once, and
the filtered list is a sublist of the input — the input list's elements,
length and order are untouched. -/
theorem filteredTasks_pure_idempotent (p : String)
    (hp : p = "all" ∨ p = "open" ∨ p = "done") (tasks : List Task) :
    filteredTasks p (filteredTasks p tasks) = filteredTasks p tasks ∧
    (filteredTasks p tasks).Sublist tasks ∧
    (filteredTasks p tasks).length ≤ tasks.length := by
  refine ⟨?_, List.filter_sublist _, List.length_filter_le _ _⟩
  have : ∀ (f : Task → Bool) (l : List Task), (l.filter f).filter f = l.filter f := by
    intro f l
    rw [List.filter_filter]
    simp
  exact this _ _

/-! ### Concrete fixtures for witnesses -/

/-- A concrete closed card with no due date. -/
def wcardA : Card :=
  { id := "c1", name := "Ship report", desc := none, closed := true, due := none,
    dateLastActivity := none, shortUrl := "su1", url := "u1",
    comments_count := none, checklists_count := none, list_id := "l1",
    list_name := "Doing", dueComplete := none, labels := none }

/-- A concrete open card with a malformed due-date string. -/
def wcardB : Card :=
  { id := "c2", name := "Fix login", desc := some "desc", closed := false,
    due := some "not-a-date", dateLastActivity := some "2024-05-01T00:00:00Z",
    shortUrl := "su2", url := "u2", comments_count := some 3,
    checklists_count := some 1, list_id := "l1", list_name := "Doing",
    dueComplete := some false, labels := some ["red"] }

/-- A concrete open card with a parseable due date. -/
def wcardC : Card :=
  { id := "c3", name := "Write minutes", desc := none, closed := false,
    due := some "2024-05-06T10:00:00Z", dateLastActivity := none,
    shortUrl := "su3", url := "u3", comments_count := none,
    checklists_count := none, list_id := "l2", list_name := "Done",
    dueComplete := none, labels := none }

/-- A concrete date parser for witnesses: parses exactly the due string of
`wcardC` to its calendar-date part, and fails on everything else. -/
def wparse : String → Option String :=
  fun s => if s = "2024-05-06T10:00:00Z" then some "2024-05-06" else none

/-- A concrete open task. -/
def wTaskA : Task :=
  { id := "t1", title := "A", description := "", status := "open",
    dueDate := "2025-01-01", assignee := { id := "1", name := "You" },
    meetingIds := [], closed := false, shortUrl := "", url := "",
    dateLastActivity := "No activity", commentsCount := 0,
    checklistsCount := 0, listName := "Doing", listId := "l1",
    dueComplete := false, labels := [] }

/-- A concrete done task with a distinct id. -/
def wTaskB : Task :=
  { wTaskA with id := "t2", status := "done" }

/-- Instantiation of `fetchTasksTransform_spec` on a three-card list: the
closed card maps to status `"done"`, the open cards to `"open"`; the missing
and malformed due dates fall back to the current date while the parseable
one is used. -/
theorem fetchTasksTransform_spec_witness :
    ((fetchTasksTransform (fun s => s) wparse "2025-06-01"
        [wcardA, wcardB, wcardC]).get ⟨0, by decide⟩).status = "done" ∧
    ((fetchTasksTransform (fun s => s) wparse "2025-06-01"
        [wcardA, wcardB, wcardC]).get ⟨0, by decide⟩).dueDate = "2025-06-01" ∧
    ((fetchTasksTransform (fun s => s) wparse "2025-06-01"
        [wcardA, wcardB, wcardC]).get ⟨1, by decide⟩).status = "open" ∧
    ((fetchTasksTransform (fun s => s) wparse "2025-06-01"
        [wcardA, wcardB, wcardC]).get ⟨1, by decide⟩).dueDate = "2025-06-01" ∧
    ((fetchTasksTransform (fun s => s) wparse "2025-06-01"
        [wcardA, wcardB, wcardC]).get ⟨2, by decide⟩).dueDate = "2024-05-06" := by
  have h := fetchTasksTransform_spec (fun s => s) wparse "2025-06-01"
    [wcardA, wcardB, wcardC]
  refine ⟨?_, ?_, ?_, ?_, ?_⟩
  · exact (h.2 0 (by decide) (by decide)).2.1 (by decide)
  · exact (h.2 0 (by decide) (by decide)).2.2.2.1 (by decide)
  · exact (h.2 1 (by decide) (by decide)).2.2.1 (by decide)
  · exact (h.2 1 (by decide) (by decide)).2.2.2.2.2 "not-a-date" (by decide)
      (by decide) (by decide)
  · exact (h.2 2 (by decide) (by decide)).2.2.2.2.1 "2024-05-06T10:00:00Z"
      "2024-05-06" (by decide) (by decide) (by decide)

/-- Instantiation of `fetchTasks_failure_preserves_state` at both failure
modes: a failed settings fetch and a failed cards fetch each leave a
nonempty previous task list in place. -/
theorem fetchTasks_failure_preserves_state_witness :
    fetchTasks (fun s => s) wparse "2025-06-01" none
        (some { cards := [wcardA] }) { tasks := [wTaskA], lists := [] } =
      { tasks := [wTaskA], lists := [] } ∧
    fetchTasks (fun s => s) wparse "2025-06-01"
        (some { workspace_id := some "board1" }) none
        { tasks := [wTaskA], lists := [] } =
      { tasks := [wTaskA], lists := [] } :=
  ⟨(fetchTasks_failure_preserves_state (fun s => s) wparse "2025-06-01" none
      (some { cards := [wcardA] }) { tasks := [wTaskA], lists := [] }
      (Or.inl rfl)).1,
   (fetchTasks_failure_preserves_state (fun s => s) wparse "2025-06-01"
      (some { workspace_id := some "board1" }) none
      { tasks := [wTaskA], lists := [] } (Or.inr rfl)).1⟩

/-- Instantiation of `toggleTaskStatus_toggle_twice` on a concrete two-task
list: toggling `"t1"` twice restores the list, and the other task is
untouched after one toggle. -/
theorem toggleTaskStatus_toggle_twice_witness :
    toggleTaskStatus "t1" (toggleTaskStatus "t1" [wTaskA, wTaskB]) =
      [wTaskA, wTaskB] ∧
    (toggleTaskStatus "t1" [wTaskA, wTaskB]).get ⟨1, by decide⟩ = wTaskB := by
  have h := toggleTaskStatus_toggle_twice "t1" [wTaskA, wTaskB]
    (by decide) (by decide)
  exact ⟨h.1, h.2.2 1 (by decide) (by decide) (by decide)⟩

/-- Instantiation of `filteredTasks_pure_idempotent` at the `"open"` filter
on a concrete two-task list, together with the evaluated filter result. -/
theorem filteredTasks_pure_idempotent_witness :
    (filteredTasks "open" (filteredTasks "open" [wTaskA, wTaskB]) =
      filteredTasks "open" [wTaskA, wTaskB] ∧
    (filteredTasks "open" [wTaskA, wTaskB]).Sublist [wTaskA, wTaskB]) ∧
    filteredTasks "open" [wTaskA, wTaskB] = [wTaskA] := by
  have h := filteredTasks_pure_idempotent "open" (Or.inr (Or.inl rfl))
    [wTaskA, wTaskB]
  exact ⟨⟨h.1, h.2.1⟩, by decide⟩

/-! ## MeetingDetail (`Frontend/src/components/dashboard/MeetingDetail.jsx`)

`loadMeeting` transforms the backend meeting record; `convertActionToTask`
is the one-way action-item-to-task transition; the render truncates the
summary and transcript at fixed character thresholds. -/

/-- A participant entry as `loadMeeting` (and `loadMeetings` in
`DashboardNav.jsx`) builds it:
`participants.map(name => ({ id: name.toLowerCase(), name }))`. -/
structure Participant where
  id : String
  name : String
deriving Repr, DecidableEq

/-- The participant transform of the meeting adapters: each name becomes an
entry whose `id` is the lower-cased name. -/
def meetingParticipants (names : List String) : List Participant :=
  names.map (fun name => { id := jsToLower name, name := name })

/-- An action item as `loadMeeting` builds it (`id` is `action-` plus the
item's index); `deadline` is absent on loaded items but read by
`convertActionToTask`, so it is kept optional. -/
structure ActionItem where
  id : String
  text : String
  assignee : String
  assigned_by : Option String
  deadline : Option String
deriving Repr, DecidableEq

/-- The outcome of the `/meetings/{id}/convert-to-task` call as
`convertActionToTask` observes it:
* `httpError msg` — the fetch rejected or `!response.ok`; `msg` is the
  thrown error's message (the parsed `detail` field or the HTTP status
  text);
* `ok success message error` — a success response whose JSON body carried
  these fields. -/
inductive ConvertResponse where
  | httpError (msg : String)
  | ok (success : Bool) (message : Option String) (error : Option String)
deriving Repr, DecidableEq

/-- The user-visible effect of one `convertActionToTask` run:
a success `alert`, a failure `alert`, or the permission-failure `confirm`
dialog that offers navigating to `/app/settings` to reconnect Trello. -/
inductive ConvertEffect where
  | alertSuccess (text : String)
  | alertFailure (text : String)
  | reauthPrompt (text : String)
deriving Repr, DecidableEq

/-- The fallback `result.error || "Failed to convert action item to task"`. -/
def convertErrorMsg (error : Option String) : String :=
  if strTruthy error then error.getD ""
  else "Failed to convert action item to task"

/-- The permission test of `convertActionToTask`:
`errorMsg.toLowerCase().includes("permission") ||
 errorMsg.toLowerCase().includes("unauthorized")`. -/
def isPermissionError (msg : String) : Bool :=
  jsIncludes (jsToLower msg) "permission" || jsIncludes (jsToLower msg) "unauthorized"

/-- The `convertActionToTask` transition: given the response for the
conversion of `item`, produce the new in-memory action-item list and the
user-visible effect.  Only the confirmed-success branch
(`result.success`) filters the item out of the list; every other branch
leaves the list as it was. -/
def convertActionToTask (resp : ConvertResponse) (item : ActionItem)
    (items : List ActionItem) : List ActionItem × ConvertEffect :=
  match resp with
  | .httpError msg =>
      (items, .alertFailure ("❌ Failed to convert action item to task: " ++ msg))
  | .ok true message _ =>
      (items.filter (fun ai => ai.id ≠ item.id),
       .alertSuccess ("✅ " ++
         (if strTruthy message then message.getD ""
          else "Action item converted to task successfully!")))
  | .ok false _ error =>
      let errorMsg := convertErrorMsg error
      if isPermissionError errorMsg then (items, .reauthPrompt errorMsg)
      else (items, .alertFailure ("❌ " ++ errorMsg))

/-- C4: action-item conversion is a one-way transition.  On a confirmed
success the item is removed from the in-memory list (no entry with its id
remains, the others keep their order); on an HTTP failure or a
`success: false` result the list is unchanged and the failure reason is
surfaced, a permission-indicating message as the distinguished
reauthorization prompt and any other message as a plain failure alert. -/
theorem convertActionToTask_one_way (resp : ConvertResponse)
    (item : ActionItem) (items : List ActionItem) :
    (∀ m e, resp = .ok true m e →
      (convertActionToTask resp item items).1 =
          items.filter (fun ai => ai.id ≠ item.id) ∧
      item.id ∉ ((convertActionToTask resp item items).1).map ActionItem.id ∧
      ∃ t, (convertActionToTask resp item items).2 = .alertSuccess t) ∧
    (∀ m, resp = .httpError m →
      (convertActionToTask resp item items).1 = items ∧
      (convertActionToTask resp item items).2 =
        .alertFailure ("❌ Failed to convert action item to task: " ++ m)) ∧
    (∀ m e, resp = .ok false m e →
      (convertActionToTask resp item items).1 = items ∧
      (isPermissionError (convertErrorMsg e) = true →
        (convertActionToTask resp item items).2 =
          .reauthPrompt (convertErrorMsg e)) ∧
      (isPermissionError (convertErrorMsg e) = false →
        (convertActionToTask resp item items).2 =
          .alertFailure ("❌ " ++ convertErrorMsg e))) := by
  refine ⟨?_, ?_, ?_⟩
  · rintro m e rfl
    refine ⟨rfl, ?_, ⟨_, rfl⟩⟩
    simp only [convertActionToTask, List.mem_map, List.mem_filter]
    rintro ⟨ai, ⟨hmem, hne⟩, hid⟩
    simp [hid] at hne
  · rintro m rfl
    exact ⟨rfl, rfl⟩
  · rintro m e rfl
    refine ⟨?_, ?_, ?_⟩
    · by_cases hp : isPermissionError (convertErrorMsg e) <;>
        simp [convertActionToTask, hp]
    · intro hp; simp [convertActionToTask, hp]
    · intro hp; simp [convertActionToTask, hp]

/-- A concrete action item for witnesses. -/
def wItemA : ActionItem :=
  { id := "action-0", text := "Draft the rollout plan", assignee := "Sam",
    assigned_by := some "Alex", deadline := none }

/-- A second concrete action item. -/
def wItemB : ActionItem :=
  { id := "action-1", text := "Book the demo room", assignee := "Priya",
    assigned_by := none, deadline := none }

/-- Instantiation of `convertActionToTask_one_way` on a concrete two-item
list: a confirmed success removes the converted item and keeps the other, a
permission failure prompts reauthorization with the list unchanged, and an
HTTP failure alerts with the list unchanged. -/
theorem convertActionToTask_one_way_witness :
    ((convertActionToTask (.ok true (some "Created!") none) wItemA
        [wItemA, wItemB]).1 =
        [wItemA, wItemB].filter (fun ai => ai.id ≠ wItemA.id) ∧
      "action-0" ∉ ((convertActionToTask (.ok true (some "Created!") none)
        wItemA [wItemA, wItemB]).1).map ActionItem.id) ∧
    (convertActionToTask (.ok true (some "Created!") none) wItemA
        [wItemA, wItemB]).1 = [wItemB] ∧
    ((convertActionToTask (.ok false none (some "Permission denied by Trello"))
        wItemA [wItemA, wItemB]).1 = [wItemA, wItemB] ∧
      (convertActionToTask (.ok false none (some "Permission denied by Trello"))
        wItemA [wItemA, wItemB]).2 =
        .reauthPrompt (convertErrorMsg (some "Permission denied by Trello"))) ∧
    ((convertActionToTask (.httpError "HTTP 500: Internal Server Error") wItemA
        [wItemA, wItemB]).1 = [wItemA, wItemB] ∧
      (convertActionToTask (.httpError "HTTP 500: Internal Server Error") wItemA
        [wItemA, wItemB]).2 =
        .alertFailure
          "❌ Failed to convert action item to task: HTTP 500: Internal Server Error") := by
  have hs := (convertActionToTask_one_way (.ok true (some "Created!") none)
    wItemA [wItemA, wItemB]).1 (some "Created!") none rfl
  have hperm := (convertActionToTask_one_way
    (.ok false none (some "Permission denied by Trello")) wItemA
    [wItemA, wItemB]).2.2 none (some "Permission denied by Trello") rfl
  have hhttp := (convertActionToTask_one_way
    (.httpError "HTTP 500: Internal Server Error") wItemA
    [wItemA, wItemB]).2.1 "HTTP 500: Internal Server Error" rfl
  exact ⟨⟨hs.1, hs.2.1⟩, by decide, ⟨hperm.1, hperm.2.1 (by decide)⟩,
    ⟨hhttp.1, hhttp.2⟩⟩

/-! ### Transcript truncation (claim C7)

`meeting.transcript_text` may be `null` or empty; both are falsy in every
read of the field (`!meeting.transcript_text`,
`meeting.transcript_text || "Transcript not available"`,
`meeting.transcript_text &&`), so the field is modelled as a `String` with
`""` standing for an absent transcript. -/

/-- The constant `SUMMARY_TRUNCATE_LENGTH = 500` of `MeetingDetail.jsx`. -/
def SUMMARY_TRUNCATE_LENGTH : Nat := 500

/-- The constant `TRANSCRIPT_TRUNCATE_LENGTH = 1000` of `MeetingDetail.jsx`. -/
def TRANSCRIPT_TRUNCATE_LENGTH : Nat := 1000

/-- JavaScript `s.substring(0, n)`: the first `n` characters of `s`. -/
def jsSubstringTo (n : Nat) (s : String) : String := String.mk (s.data.take n)

/-- The transcript text rendered by `MeetingDetail`: the full text (or the
placeholder) when expanded, absent, or within the threshold; otherwise the
first `TRANSCRIPT_TRUNCATE_LENGTH` characters followed by `"..."`. -/
def renderedTranscript (transcriptExpanded : Bool) (transcript_text : String) :
    String :=
  if transcriptExpanded = true ∨ transcript_text = "" ∨
      transcript_text.length ≤ TRANSCRIPT_TRUNCATE_LENGTH then
    if transcript_text = "" then "Transcript not available" else transcript_text
  else
    jsSubstringTo TRANSCRIPT_TRUNCATE_LENGTH transcript_text ++ "..."

/-- Whether the transcript "Read more" button is rendered:
`meeting.transcript_text && meeting.transcript_text.length >
TRANSCRIPT_TRUNCATE_LENGTH`. -/
def transcriptReadMoreShown (transcript_text : String) : Bool :=
  transcript_text != "" &&
    TRANSCRIPT_TRUNCATE_LENGTH < transcript_text.length

/-- C7: for a meeting with a (nonempty) transcript of at most 1000
characters the detail view renders the full text, in any expansion state,
and no "Read more" control; for a transcript longer than 1000 characters
it renders exactly the first 1000 characters followed by an ellipsis while
unexpanded, renders the full text once expanded, and shows the "Read more"
control. -/
theorem transcript_truncation (t : String) (ht : t ≠ "") :
    (t.length ≤ TRANSCRIPT_TRUNCATE_LENGTH →
      (∀ expanded, renderedTranscript expanded t = t) ∧
      transcriptReadMoreShown t = false) ∧
    (TRANSCRIPT_TRUNCATE_LENGTH < t.length →
      renderedTranscript false t =
        String.mk (t.data.take TRANSCRIPT_TRUNCATE_LENGTH) ++ "..." ∧
      (renderedTranscript false t).length = TRANSCRIPT_TRUNCATE_LENGTH + 3 ∧
      renderedTranscript true t = t ∧
      transcriptReadMoreShown t = true) := by
  constructor
  · intro hle
    constructor
    · intro expanded
      simp [renderedTranscript, ht, hle]
    · have hnlt : ¬ TRANSCRIPT_TRUNCATE_LENGTH < t.length := Nat.not_lt.mpr hle
      simp [transcriptReadMoreShown, hnlt]
  · intro hgt
    have hnle : ¬ t.length ≤ TRANSCRIPT_TRUNCATE_LENGTH := Nat.not_le.mpr hgt
    refine ⟨?_, ?_, ?_, ?_⟩
    · simp [renderedTranscript, ht, hnle, jsSubstringTo]
    · have hr : renderedTranscript false t =
          String.mk (t.data.take TRANSCRIPT_TRUNCATE_LENGTH) ++ "..." := by
        simp [renderedTranscript, ht, hnle, jsSubstringTo]
      have hlen : (String.mk (t.data.take TRANSCRIPT_TRUNCATE_LENGTH) ++
          "...").length = (t.data.take TRANSCRIPT_TRUNCATE_LENGTH).length + 3 := by
        show (t.data.take TRANSCRIPT_TRUNCATE_LENGTH ++ "...".data).length = _
        rw [List.length_append]
        rfl
      rw [hr, hlen, List.length_take]
      have hdl : TRANSCRIPT_TRUNCATE_LENGTH ≤ t.data.length := Nat.le_of_lt hgt
      omega
    · simp [renderedTranscript, ht]
    · simp [transcriptReadMoreShown, ht, hgt]

/-- Instantiation of `transcript_truncation` at a short transcript and at a
concrete 1001-character transcript. -/
theorem transcript_truncation_witness :
    (renderedTranscript false "hello" = "hello" ∧
      transcriptReadMoreShown "hello" = false) ∧
    (renderedTranscript false (String.mk (List.replicate 1001 'x')) =
        String.mk (List.replicate 1000 'x') ++ "..." ∧
      transcriptReadMoreShown (String.mk (List.replicate 1001 'x')) = true) := by
  have hshort := (transcript_truncation "hello" (by decide)).1 (by decide)
  have hlong := (transcript_truncation (String.mk (List.replicate 1001 'x'))
    (by decide)).2 (by
      show TRANSCRIPT_TRUNCATE_LENGTH < (List.replicate 1001 'x').length
      rw [List.length_replicate]
      norm_num [TRANSCRIPT_TRUNCATE_LENGTH])
  refine ⟨⟨hshort.1 false, hshort.2⟩, ?_, hlong.2.2.2⟩
  rw [hlong.1]
  have htake : (List.replicate 1001 'x').take TRANSCRIPT_TRUNCATE_LENGTH =
      List.replicate 1000 'x' := by
    rw [List.take_replicate]
    norm_num [TRANSCRIPT_TRUNCATE_LENGTH]
  rw [htake]

/-! ### Participant keying (claim C8) -/

/-- C8 counterexample: two participants named `"Sam"` and `"sam"` are NOT
collapsed to one entry — the adapter maps each name separately, so both
entries remain (both with id `"sam"`). -/
theorem participants_not_collapsed_cex :
    meetingParticipants ["Sam", "sam"] =
      [{ id := "sam", name := "Sam" }, { id := "sam", name := "sam" }] ∧
    (meetingParticipants ["Sam", "sam"]).length ≠ 1 := by decide

/-- C8 (amended): the meeting adapters key every participant entry by the
lower-cased name, preserving the list's length, order and the original
names — so two names differing only by case receive the same id (a key
collision) but are not deduplicated into one entry. -/
theorem participants_keyed_by_lowercase_not_deduped (names : List String) :
    (meetingParticipants names).length = names.length ∧
    (meetingParticipants names).map Participant.id = names.map jsToLower ∧
    (meetingParticipants names).map Participant.name = names := by
  refine ⟨by simp [meetingParticipants], by simp [meetingParticipants], ?_⟩
  simp only [meetingParticipants, List.map_map]
  exact List.map_id names

/-! ## Document upload check (`handleFileUpload` in `ProductsPage.jsx`,
claims C9 and C10) -/

/-- The constant `allowedExtensions = ['.pdf', '.txt', '.docx', '.doc']`. -/
def allowedExtensions : List String := [".pdf", ".txt", ".docx", ".doc"]

/-- The expression `'.' + file.name.split('.').pop().toLowerCase()`
(`pop()` takes the last piece of the split; a split always yields at least
one piece, the whole name when it holds no dot). -/
def fileExt (fileName : String) : String :=
  "." ++ jsToLower ((jsSplit '.' fileName).getLast?.getD "")

/-- What `handleFileUpload` does for a selected file: either the early
client-side rejection (the error chat message is added and the function
returns before any network call) or the upload `POST` request. -/
inductive UploadAction where
  | reject (message : String)
  | request (fileName : String)
deriving Repr, DecidableEq

/-- The client-side extension gate of `handleFileUpload`: reject unless
`allowedExtensions.includes(fileExt)`; only the accepted path reaches the
`fetch` of `/trans2actions/upload`. -/
def handleFileUpload (fileName : String) : UploadAction :=
  if allowedExtensions.contains (fileExt fileName) then .request fileName
  else .reject "Error: Unsupported file type. Supported formats: PDF, TXT, DOCX"

/-- Left-cancellation of string concatenation. -/
theorem string_append_left_cancel (a b c : String) (h : a ++ b = a ++ c) :
    b = c := by
  cases a with | mk xs =>
  cases b with | mk ys =>
  cases c with | mk zs =>
  have h2 : xs ++ ys = xs ++ zs := congrArg String.data h
  exact congrArg String.mk (List.append_cancel_left h2)

/-- A dotted extension string is allowed exactly when its dot-free part is
one of the four supported suffixes. -/
theorem dot_ext_mem (e : String) :
    ("." ++ e) ∈ allowedExtensions ↔ e ∈ ["pdf", "txt", "docx", "doc"] := by
  simp only [allowedExtensions, List.mem_cons, List.not_mem_nil, or_false]
  constructor
  · rintro (h | h | h | h)
    · exact Or.inl (string_append_left_cancel "." e "pdf" (h.trans (by decide)))
    · exact Or.inr (Or.inl
        (string_append_left_cancel "." e "txt" (h.trans (by decide))))
    · exact Or.inr (Or.inr (Or.inl
        (string_append_left_cancel "." e "docx" (h.trans (by decide)))))
    · exact Or.inr (Or.inr (Or.inr
        (string_append_left_cancel "." e "doc" (h.trans (by decide)))))
  · rintro (h | h | h | h) <;> subst h <;> decide

/-- C9: submitting `notes.exe` is rejected client-side with the
unsupported-type message naming the supported formats, without the upload
request being issued (the `reject` action returns before any network call);
and a file passes the client-side check only when the piece of its name
after the last dot, lower-cased, is `pdf`, `txt`, `docx` or `doc`. -/
theorem notesExe_rejected_before_upload (fileName : String) :
    handleFileUpload "notes.exe" =
      .reject "Error: Unsupported file type. Supported formats: PDF, TXT, DOCX" ∧
    (handleFileUpload fileName = .request fileName →
      jsToLower ((jsSplit '.' fileName).getLast?.getD "") ∈
        ["pdf", "txt", "docx", "doc"]) := by
  refine ⟨by decide, ?_⟩
  intro h
  simp [handleFileUpload] at h
  have hmem : ("." ++ jsToLower ((jsSplit '.' fileName).getLast?.getD "")) ∈
      allowedExtensions := h
  exact (dot_ext_mem _).mp hmem

/-- Instantiation of `notesExe_rejected_before_upload`: the concrete
rejection of `notes.exe`, and `REPORT.PDF` passing the check with its
lower-cased suffix among the supported ones. -/
theorem notesExe_rejected_before_upload_witness :
    handleFileUpload "notes.exe" =
      .reject "Error: Unsupported file type. Supported formats: PDF, TXT, DOCX" ∧
    jsToLower ((jsSplit '.' "REPORT.PDF").getLast?.getD "") ∈
      ["pdf", "txt", "docx", "doc"] := by
  have h := notesExe_rejected_before_upload "REPORT.PDF"
  exact ⟨h.1, h.2 (by decide)⟩

/-- C10 counterexample: the filename `pdf` holds no dot, yet the check
accepts it and the upload request is issued — a dotless filename is not
always rejected. -/
theorem dotless_filename_accepted_cex :
    '.' ∉ "pdf".data ∧ handleFileUpload "pdf" = .request "pdf" := by decide

/-- C10 (amended): the extension check is case-insensitive over the piece
of the filename after the last dot — the whole name when it holds no dot —
and accepts exactly when that piece, lower-cased, is `pdf`, `txt`, `docx`
or `doc`.  So `REPORT.PDF` and `resume.doc` are accepted (though the
rejection message lists only PDF, TXT, DOCX), and a dotless filename is
accepted exactly when its whole lower-cased name is one of the four
(`pdf` is accepted, `notes` is rejected). -/
theorem upload_extension_rule (fileName : String) :
    (handleFileUpload fileName = .request fileName ↔
      jsToLower ((jsSplit '.' fileName).getLast?.getD "") ∈
        ["pdf", "txt", "docx", "doc"]) ∧
    handleFileUpload "REPORT.PDF" = .request "REPORT.PDF" ∧
    handleFileUpload "resume.doc" = .request "resume.doc" ∧
    handleFileUpload "pdf" = .request "pdf" ∧
    handleFileUpload "notes" =
      .reject "Error: Unsupported file type. Supported formats: PDF, TXT, DOCX" := by
  refine ⟨⟨?_, ?_⟩, by decide, by decide, by decide, by decide⟩
  · intro h
    simp [handleFileUpload] at h
    have hmem : ("." ++ jsToLower ((jsSplit '.' fileName).getLast?.getD "")) ∈
        allowedExtensions := h
    exact (dot_ext_mem _).mp hmem
  · intro h
    have hmem : fileExt fileName ∈ allowedExtensions :=
      (dot_ext_mem (jsToLower ((jsSplit '.' fileName).getLast?.getD ""))).mpr h
    simp [handleFileUpload]
    exact hmem

/-- Instantiation of `upload_extension_rule`: a mixed-case `.DOCX` filename
passes the check. -/
theorem upload_extension_rule_witness :
    handleFileUpload "Notes.DOCX" = .request "Notes.DOCX" :=
  ((upload_extension_rule "Notes.DOCX").1).mpr (by decide)

end AuraAI
